import Mathlib

/-!
Verification of the landlab typed configuration dictionary
(`ModelParameterDictionary`) and of the `_FlowDirectorToOne` field
initialization step.

The parameter-dictionary implementation itself
(`landlab/core/model_parameter_dictionary.py`) is not part of the visible
sources; only its unit tests are.  Its data model, parsing rules and
accessor semantics are therefore modelled from the specification
(sections 3, 4.1 and 7 of the spec), and each such definition carries a
doc comment saying so.  `_FlowDirectorToOne.__init__` is translated
directly from `landlab/components/flow_director/flow_director_to_one.py`.
-/

namespace Landlab

/-! ### Character-level utilities (Python `str.strip`, `str.split`, literal syntax) -/

/-- Whitespace characters removed by Python `str.strip()`:
space, tab, newline, carriage return, vertical tab, form feed. -/
def isSpaceCh (c : Char) : Bool :=
  c.toNat == 32 || c.toNat == 9 || c.toNat == 10 ||
  c.toNat == 13 || c.toNat == 11 || c.toNat == 12

/-- Decimal digit test, by code point. -/
def isDig (c : Char) : Bool :=
  48 ≤ c.toNat && c.toNat ≤ 57

/-- Lower-casing of a single ASCII character (Python `str.lower` on ASCII). -/
def toLowerCh (c : Char) : Char :=
  if 65 ≤ c.toNat && c.toNat ≤ 90 then Char.ofNat (c.toNat + 32) else c

/-- Strip leading and trailing whitespace (Python `str.strip()`). -/
def trimChars (cs : List Char) : List Char :=
  ((cs.dropWhile isSpaceCh).reverse.dropWhile isSpaceCh).reverse

/-- Helper for `splitOnChar`: accumulates the current segment (reversed). -/
def splitAux (sep : Char) : List Char → List Char → List (List Char)
  | [], acc => [acc.reverse]
  | c :: rest, acc =>
      if c = sep then acc.reverse :: splitAux sep rest []
      else splitAux sep rest (c :: acc)

/-- Split a character list on a separator character (Python `str.split(sep)`):
always returns at least one segment, separators are dropped. -/
def splitOnChar (sep : Char) (cs : List Char) : List (List Char) :=
  splitAux sep cs []

/-- Numeric value of a digit list, most significant first. -/
def digitsVal (cs : List Char) : Nat :=
  cs.foldl (fun a c => a * 10 + (c.toNat - 48)) 0

/-- Nonempty and all decimal digits. -/
def allDigits (cs : List Char) : Bool :=
  !cs.isEmpty && cs.all isDig

/-- Strip one optional leading sign; returns (negative?, remainder). -/
def parseSign : List Char → Bool × List Char
  | [] => (false, [])
  | a :: rest =>
      if a = '-' then (true, rest)
      else if a = '+' then (false, rest)
      else (false, a :: rest)

/-- Modelled from the spec: `read_int` coercion, i.e. Python `int(s)` on a
string — surrounding whitespace allowed, optional sign, then one or more
digits; no decimal point, no exponent (spec 4.1: "integer literal").
Missing code: `landlab/core/model_parameter_dictionary.py`. -/
def parseIntChars (cs : List Char) : Option Int :=
  let t := trimChars cs
  let p := parseSign t
  if allDigits p.2 then
    some (if p.1 then -(digitsVal p.2 : Int) else (digitsVal p.2 : Int))
  else none

/-- Mantissa of a float literal: `digits`, `digits.`, `digits.digits` or
`.digits` (at least one digit overall), valued as a rational. -/
def parseMantissa (cs : List Char) : Option ℚ :=
  match splitOnChar '.' cs with
  | [ip] => if allDigits ip then some (digitsVal ip : ℚ) else none
  | [ip, fp] =>
      if ip.all isDig && fp.all isDig && (!ip.isEmpty || !fp.isEmpty) then
        some ((digitsVal ip : ℚ) + (digitsVal fp : ℚ) / (10 : ℚ) ^ fp.length)
      else none
  | _ => none

/-- Modelled from the spec: `read_float` coercion, i.e. Python `float(s)` on a
finite decimal literal — surrounding whitespace, optional sign, mantissa with
optional decimal point, optional `e`/`E` exponent (spec 4.1:
"floating-point literal").  Values are rationals: every finite decimal
literal denotes a rational, and the claims only compare values arising from
such literals.  Missing code: `landlab/core/model_parameter_dictionary.py`. -/
def parseFloatChars (cs : List Char) : Option ℚ :=
  let t := trimChars cs
  let p := parseSign t
  let body := p.2.map (fun c => if c = 'E' then 'e' else c)
  match splitOnChar 'e' body with
  | [m] =>
      (parseMantissa m).map (fun q => if p.1 then -q else q)
  | [m, ex] =>
      match parseMantissa m with
      | none => none
      | some q =>
          let ep := parseSign ex
          if allDigits ep.2 then
            let mag : ℚ := (10 : ℚ) ^ digitsVal ep.2
            let q2 := if ep.1 then q / mag else q * mag
            some (if p.1 then -q2 else q2)
          else none
  | _ => none

/-- String form of `parseIntChars`. -/
def parseIntLiteral (s : String) : Option Int :=
  parseIntChars s.data

/-- String form of `parseFloatChars`. -/
def parseFloatLiteral (s : String) : Option ℚ :=
  parseFloatChars s.data

/-- ASCII lower-casing of a character list. -/
def lowerChars (cs : List Char) : List Char :=
  cs.map toLowerCh

/-! ### The stored-value type and the store -/

/-- Modelled from the spec (section 3 and design note 9): the tagged union of
values a `ModelParameterDictionary` can hold — a plain string in raw mode; an
int, float, bool, string, or homogeneous numeric array in auto-type mode. -/
inductive PValue where
  | str (s : String)
  | int (n : Int)
  | float (q : ℚ)
  | bool (b : Bool)
  | intArray (ns : List Int)
  | floatArray (qs : List ℚ)
deriving DecidableEq, Repr

/-- Modelled from the spec (section 3): the store is a mapping from parameter
name to stored value; keys are unique.  Represented as an association list
with dict-style insertion. -/
abbrev Store := List (String × PValue)

/-- Modelled from the spec (section 7): the error kinds.
`missingKey` names the requested key; `keyError` is the key-error kind of
indexed lookup. -/
inductive PError where
  | missingKey (k : String)
  | paramValue
  | keyError (k : String)
deriving DecidableEq, Repr

/-- Key lookup in the store. -/
def lookupKV (st : Store) (k : String) : Option PValue :=
  (List.find? (fun p => p.1 = k) st).map (fun p => p.2)

/-- All present keys, in storage order (spec 4.1: `params()`). -/
def params (st : Store) : List String :=
  st.map (fun p => p.1)

/-- Dict-style insertion: replace in place if the key is present, else append
(Python `dict.__setitem__` semantics). -/
def insertKV (st : Store) (k : String) (v : PValue) : Store :=
  if st.any (fun p => p.1 = k) then
    st.map (fun p => if p.1 = k then (k, v) else p)
  else st ++ [(k, v)]

/-! ### Typed accessors (modelled from the spec, section 4.1) -/

/-- Modelled from the spec: `read_int(key, default)` — absent key with no
default fails with MissingKeyError naming the key; absent key with a default
returns it; a present value succeeds only if it is stored as an int or as a
string that is a pure integer literal; anything else (including a
float-literal string or a stored float) fails with ParameterValueError.
Missing code: `landlab/core/model_parameter_dictionary.py`. -/
def read_int (st : Store) (key : String) (dflt : Option Int) : Except PError Int :=
  match lookupKV st key with
  | none =>
      match dflt with
      | some d => Except.ok d
      | none => Except.error (PError.missingKey key)
  | some (PValue.int n) => Except.ok n
  | some (PValue.str s) =>
      match parseIntLiteral s with
      | some n => Except.ok n
      | none => Except.error PError.paramValue
  | some _ => Except.error PError.paramValue

/-- Modelled from the spec: `read_float(key, default)` — same missing-key and
default semantics; succeeds on a stored int or float, or on a string that is
an integer or float literal, coercing to float; any other value fails with
ParameterValueError.  Missing code:
`landlab/core/model_parameter_dictionary.py`. -/
def read_float (st : Store) (key : String) (dflt : Option ℚ) : Except PError ℚ :=
  match lookupKV st key with
  | none =>
      match dflt with
      | some d => Except.ok d
      | none => Except.error (PError.missingKey key)
  | some (PValue.int n) => Except.ok (n : ℚ)
  | some (PValue.float q) => Except.ok q
  | some (PValue.str s) =>
      match parseFloatLiteral s with
      | some q => Except.ok q
      | none => Except.error PError.paramValue
  | some _ => Except.error PError.paramValue

/-- Modelled from the spec: the string form of a stored value
(numeric values stringified; Python `str`). -/
def stringify : PValue → String
  | PValue.str s => s
  | PValue.int n => toString n
  | PValue.float q => toString q
  | PValue.bool b => if b then "True" else "False"
  | PValue.intArray ns => toString ns
  | PValue.floatArray qs => toString qs

/-- Modelled from the spec: `read_string(key, default)` — same missing-key and
default semantics; on a present key always succeeds, returning the string
form of whatever is stored.  Missing code:
`landlab/core/model_parameter_dictionary.py`. -/
def read_string (st : Store) (key : String) (dflt : Option String) :
    Except PError String :=
  match lookupKV st key with
  | none =>
      match dflt with
      | some d => Except.ok d
      | none => Except.error (PError.missingKey key)
  | some v => Except.ok (stringify v)

/-- Modelled from the spec: `read_bool(key, default)` — same missing-key and
default semantics; succeeds on a stored native bool, or on a string that
case-insensitively equals "true" or "false"; any other value fails with
ParameterValueError.  Missing code:
`landlab/core/model_parameter_dictionary.py`. -/
def read_bool (st : Store) (key : String) (dflt : Option Bool) :
    Except PError Bool :=
  match lookupKV st key with
  | none =>
      match dflt with
      | some d => Except.ok d
      | none => Except.error (PError.missingKey key)
  | some (PValue.bool b) => Except.ok b
  | some (PValue.str s) =>
      if lowerChars s.data = "true".data then Except.ok true
      else if lowerChars s.data = "false".data then Except.ok false
      else Except.error PError.paramValue
  | some _ => Except.error PError.paramValue

/-- The four parameter types `get` can dispatch on. -/
inductive PType where
  | int
  | float
  | str
  | bool
deriving DecidableEq, Repr

/-- Modelled from the spec: the coercion `get` applies to a present stored
value, dispatching on the requested type with the same rules as the
corresponding `read_` accessor (spec 4.1).  Missing code:
`landlab/core/model_parameter_dictionary.py`. -/
def coerceTo : PType → PValue → Except PError PValue
  | PType.int, PValue.int n => Except.ok (PValue.int n)
  | PType.int, PValue.str s =>
      match parseIntLiteral s with
      | some n => Except.ok (PValue.int n)
      | none => Except.error PError.paramValue
  | PType.int, _ => Except.error PError.paramValue
  | PType.float, PValue.int n => Except.ok (PValue.float (n : ℚ))
  | PType.float, PValue.float q => Except.ok (PValue.float q)
  | PType.float, PValue.str s =>
      match parseFloatLiteral s with
      | some q => Except.ok (PValue.float q)
      | none => Except.error PError.paramValue
  | PType.float, _ => Except.error PError.paramValue
  | PType.str, v => Except.ok (PValue.str (stringify v))
  | PType.bool, PValue.bool b => Except.ok (PValue.bool b)
  | PType.bool, PValue.str s =>
      if lowerChars s.data = "true".data then Except.ok (PValue.bool true)
      else if lowerChars s.data = "false".data then Except.ok (PValue.bool false)
      else Except.error PError.paramValue
  | PType.bool, _ => Except.error PError.paramValue

/-- Modelled from the spec: `get(key, ptype, default)` — the generic accessor:
same missing-key/default semantics as the `read_` accessors, then coercion
dispatched on `ptype`.  Missing code:
`landlab/core/model_parameter_dictionary.py`. -/
def get (st : Store) (key : String) (ptype : PType) (dflt : Option PValue) :
    Except PError PValue :=
  match lookupKV st key with
  | none =>
      match dflt with
      | some d => Except.ok d
      | none => Except.error (PError.missingKey key)
  | some v => coerceTo ptype v

/-- Modelled from the spec: indexed lookup (`store[key]`) returns the raw
stored value, failing with the key-error kind on an absent key; no
defaulting path.  Missing code:
`landlab/core/model_parameter_dictionary.py`. -/
def getIndex (st : Store) (key : String) : Except PError PValue :=
  match lookupKV st key with
  | some v => Except.ok v
  | none => Except.error (PError.keyError key)

/-! ### State-passing forms of the read accessors.

Modelled from the spec (section 4.1): reading accessors never mutate the
store — in particular a default returned for an absent key is not inserted.
The state-passing forms make that frame condition a statement: they return
the result together with the (unchanged) store. -/

/-- State-passing `read_int`: result plus the store after the call. -/
def readIntS (st : Store) (key : String) (dflt : Option Int) :
    Except PError Int × Store :=
  (read_int st key dflt, st)

/-- State-passing `read_float`: result plus the store after the call. -/
def readFloatS (st : Store) (key : String) (dflt : Option ℚ) :
    Except PError ℚ × Store :=
  (read_float st key dflt, st)

/-- State-passing `read_string`: result plus the store after the call. -/
def readStringS (st : Store) (key : String) (dflt : Option String) :
    Except PError String × Store :=
  (read_string st key dflt, st)

/-- State-passing `read_bool`: result plus the store after the call. -/
def readBoolS (st : Store) (key : String) (dflt : Option Bool) :
    Except PError Bool × Store :=
  (read_bool st key dflt, st)

/-- State-passing `get`: result plus the store after the call. -/
def getS (st : Store) (key : String) (ptype : PType) (dflt : Option PValue) :
    Except PError PValue × Store :=
  (get st key ptype dflt, st)

/-! ### Parsing a parameter source (modelled from the spec, section 4.1) -/

/-- Modelled from the spec: a malformed source fails with FormatError. -/
inductive FormatError where
  | badFormat
deriving DecidableEq, Repr

/-- A key line: ends in the required trailing colon delimiter. -/
def endsColon (cs : List Char) : Bool :=
  cs.getLast? == some ':'

/-- The key named by a key line: the line without its trailing colon. -/
def stripColon (cs : List Char) : List Char :=
  cs.dropLast

/-- Modelled from the spec: line cleaning — every line is stripped of
surrounding whitespace, then blank lines and comment lines (`#` first
non-whitespace character) are dropped. -/
def cleanLines (lines : List String) : List (List Char) :=
  (lines.map (fun s => trimChars s.data)).filter
    (fun cs => !(cs.isEmpty || cs.head? == some '#'))

/-- Modelled from the spec: the cleaned lines alternate key line (trailing
colon) and value line; a key line not followed by a value line, a value with
no key line, or two consecutive key lines fail with FormatError.  Produces
the (key, value-string) pairs in source order.  Missing code:
`landlab/core/model_parameter_dictionary.py`. -/
def parsePairs : List (List Char) → Except FormatError (List (String × String))
  | [] => Except.ok []
  | [_] => Except.error FormatError.badFormat
  | k :: v :: rest =>
      if endsColon k && !endsColon v then
        match parsePairs rest with
        | Except.ok ps => Except.ok ((String.mk (stripColon k), String.mk v) :: ps)
        | Except.error e => Except.error e
      else Except.error FormatError.badFormat

/-- Modelled from the spec: auto-type coercion of a value string, tried in
order — integer literal, float literal, case-insensitive true/false,
comma-separated homogeneous numeric list of at least two items (whitespace
around each item stripped; all-int, else all-float), else the stripped
string itself.  Missing code:
`landlab/core/model_parameter_dictionary.py`. -/
def autoType (s : String) : PValue :=
  let cs := trimChars s.data
  match parseIntChars cs with
  | some n => PValue.int n
  | none =>
    match parseFloatChars cs with
    | some q => PValue.float q
    | none =>
      if lowerChars cs = "true".data then PValue.bool true
      else if lowerChars cs = "false".data then PValue.bool false
      else
        let items := (splitOnChar ',' cs).map trimChars
        if 2 ≤ items.length then
          match items.mapM parseIntChars with
          | some ns => PValue.intArray ns
          | none =>
            match items.mapM parseFloatChars with
            | some qs => PValue.floatArray qs
            | none => PValue.str (String.mk cs)
        else PValue.str (String.mk cs)

/-- Build the store from parsed pairs: dict insertion in source order; in
auto-type mode each value string is coerced by `autoType`, in raw mode it is
stored as the string itself. -/
def buildStore (auto : Bool) (ps : List (String × String)) : Store :=
  ps.foldl
    (fun st p => insertKV st p.1 (if auto then autoType p.2 else PValue.str p.2))
    []

/-- Modelled from the spec: parse a whole source, given as its list of lines,
into a store — clean the lines, pair keys with values, build the mapping.
Missing code: `landlab/core/model_parameter_dictionary.py`. -/
def parseSource (auto : Bool) (lines : List String) : Except FormatError Store :=
  match parsePairs (cleanLines lines) with
  | Except.ok ps => Except.ok (buildStore auto ps)
  | Except.error e => Except.error e

/-! ### `_FlowDirectorToOne.__init__` field initialization
(translated from `landlab/components/flow_director/flow_director_to_one.py`,
lines 120-137) -/

/-- The node fields of the grid that the `__init__` fill step touches, plus
the grid's BAD_INDEX constant.  Integer node arrays are modelled as lists. -/
structure GridFields where
  links_to_receiver : List Int
  receiver : List Int
  bad_index : Int
deriving DecidableEq, Repr

/-- `if np.all(arr == 0): arr.fill(bad_index)` — fill the array with
BAD_INDEX exactly when every element is zero, else leave it unchanged. -/
def fillIfAllZero (badIndex : Int) (xs : List Int) : List Int :=
  if xs.all (fun x => x == 0) then xs.map (fun _ => badIndex) else xs

/-- The field-initialization step of `_FlowDirectorToOne.__init__`: each of
`flow__link_to_receiver_node` and `flow__receiver_node` is filled with
BAD_INDEX when it is all zeros, else kept. -/
def flowDirectorToOneInit (g : GridFields) : GridFields :=
  { g with
    links_to_receiver := fillIfAllZero g.bad_index g.links_to_receiver
    receiver := fillIfAllZero g.bad_index g.receiver }

/-! ### Helper lemmas on the character-level utilities -/

theorem mem_dropWhile_of_neg {p : Char → Bool} {c : Char} {l : List Char}
    (hc : c ∈ l) (hp : p c = false) : c ∈ l.dropWhile p := by
  induction l with
  | nil => cases hc
  | cons a t ih =>
    rw [List.dropWhile_cons]
    split
    · rcases List.mem_cons.1 hc with h | h
      · subst h; simp [hp] at *
      · exact ih h
    · exact hc

theorem mem_trimChars {c : Char} {cs : List Char} (hc : c ∈ cs)
    (hsp : isSpaceCh c = false) : c ∈ trimChars cs := by
  unfold trimChars
  exact List.mem_reverse.2
    (mem_dropWhile_of_neg (List.mem_reverse.2 (mem_dropWhile_of_neg hc hsp)) hsp)

theorem mem_parseSign_snd {c : Char} {cs : List Char} (hc : c ∈ cs)
    (hp : c ≠ '+') (hm : c ≠ '-') : c ∈ (parseSign cs).2 := by
  cases cs with
  | nil => cases hc
  | cons a rest =>
    simp only [parseSign]
    by_cases h1 : a = '-'
    · subst h1
      simp only [if_pos rfl]
      rcases List.mem_cons.1 hc with h | h
      · exact absurd h hm
      · exact h
    · by_cases h2 : a = '+'
      · subst h2
        rcases List.mem_cons.1 hc with h | h
        · exact absurd h hp
        · simpa [h1] using h
      · simpa [h1, h2] using hc

theorem all_eq_false_of_mem {α : Type} {p : α → Bool} {c : α} {l : List α}
    (hc : c ∈ l) (hp : p c = false) : l.all p = false := by
  cases h : l.all p with
  | false => rfl
  | true => exact absurd (List.all_eq_true.1 h c hc) (by simp [hp])

theorem allDigits_eq_false_of_mem {c : Char} {l : List Char}
    (hc : c ∈ l) (hd : isDig c = false) : allDigits l = false := by
  simp [allDigits, all_eq_false_of_mem hc hd]

theorem splitAux_mem_exists {sep c : Char} :
    ∀ (cs acc : List Char), c ∈ acc ∨ (c ∈ cs ∧ c ≠ sep) →
      ∃ part, part ∈ splitAux sep cs acc ∧ c ∈ part
  | [], acc, h => by
      rcases h with h | ⟨h, _⟩
      · exact ⟨acc.reverse, by simp [splitAux], List.mem_reverse.2 h⟩
      · cases h
  | a :: rest, acc, h => by
      by_cases ha : a = sep
      · subst ha
        simp only [splitAux, if_pos rfl]
        rcases h with h | ⟨h, hne⟩
        · exact ⟨acc.reverse, by simp, List.mem_reverse.2 h⟩
        · have hcr : c ∈ rest := by
            rcases List.mem_cons.1 h with h2 | h2
            · exact absurd h2 hne
            · exact h2
          obtain ⟨part, hp1, hp2⟩ :=
            splitAux_mem_exists rest [] (Or.inr ⟨hcr, hne⟩)
          exact ⟨part, List.mem_cons_of_mem _ hp1, hp2⟩
      · simp only [splitAux, if_neg ha]
        rcases h with h | ⟨h, hne⟩
        · exact splitAux_mem_exists rest (a :: acc)
            (Or.inl (List.mem_cons_of_mem _ h))
        · rcases List.mem_cons.1 h with h2 | h2
          · exact splitAux_mem_exists rest (a :: acc)
              (Or.inl (h2 ▸ List.mem_cons_self _ _))
          · exact splitAux_mem_exists rest (a :: acc) (Or.inr ⟨h2, hne⟩)

theorem mem_splitOnChar {sep c : Char} {cs : List Char}
    (hc : c ∈ cs) (hne : c ≠ sep) :
    ∃ part, part ∈ splitOnChar sep cs ∧ c ∈ part :=
  splitAux_mem_exists cs [] (Or.inr ⟨hc, hne⟩)

theorem splitAux_no_sep {sep : Char} :
    ∀ (cs acc : List Char), sep ∉ cs → splitAux sep cs acc = [acc.reverse ++ cs]
  | [], acc, _ => by simp [splitAux]
  | a :: rest, acc, h => by
      have ha : ¬a = sep := fun e => h (e ▸ List.mem_cons_self a rest)
      simp only [splitAux, if_neg ha]
      rw [splitAux_no_sep rest (a :: acc) (fun hm => h (List.mem_cons_of_mem a hm))]
      simp

theorem splitOnChar_no_sep {sep : Char} {cs : List Char} (h : sep ∉ cs) :
    splitOnChar sep cs = [cs] := by
  simpa using splitAux_no_sep cs [] h

theorem map_id_of_mem {f : Char → Char} :
    ∀ {l : List Char}, (∀ x ∈ l, f x = x) → l.map f = l
  | [], _ => rfl
  | a :: t, h => by
      simp only [List.map_cons, h a (List.mem_cons_self a t)]
      rw [map_id_of_mem (fun x hx => h x (List.mem_cons_of_mem a hx))]

/-! ### Negative parsing lemmas: a non-digit, non-sign, non-point, non-exponent
character anywhere in the value makes the numeric literal parsers fail. -/

theorem parseIntChars_eq_none_of_mem {c : Char} {cs : List Char}
    (hc : c ∈ cs) (hsp : isSpaceCh c = false) (hd : isDig c = false)
    (hp : c ≠ '+') (hm : c ≠ '-') : parseIntChars cs = none := by
  have h1 : c ∈ trimChars cs := mem_trimChars hc hsp
  have h2 : c ∈ (parseSign (trimChars cs)).2 := mem_parseSign_snd h1 hp hm
  have h3 : allDigits (parseSign (trimChars cs)).2 = false :=
    allDigits_eq_false_of_mem h2 hd
  simp [parseIntChars, h3]

theorem parseMantissa_eq_none_of_mem {c : Char} {m : List Char}
    (hcm : c ∈ m) (hd : isDig c = false) (hdot : c ≠ '.') :
    parseMantissa m = none := by
  obtain ⟨part, hpart, hcp⟩ := mem_splitOnChar hcm hdot
  unfold parseMantissa
  rcases e : splitOnChar '.' m with _ | ⟨ip, _ | ⟨fp, _ | _⟩⟩
  · rfl
  · rw [e] at hpart
    have : part = ip := by simpa using hpart
    subst this
    simp [allDigits_eq_false_of_mem hcp hd]
  · rw [e] at hpart
    rcases List.mem_cons.1 hpart with h | h
    · subst h
      simp [all_eq_false_of_mem hcp hd]
    · have : part = fp := by simpa using h
      subst this
      simp [all_eq_false_of_mem hcp hd]
  · rfl

theorem parseFloatChars_eq_none_of_mem {c : Char} {cs : List Char}
    (hc : c ∈ cs) (hsp : isSpaceCh c = false) (hd : isDig c = false)
    (hp : c ≠ '+') (hm : c ≠ '-') (hdot : c ≠ '.')
    (he : c ≠ 'e') (hE : c ≠ 'E') : parseFloatChars cs = none := by
  have h1 : c ∈ trimChars cs := mem_trimChars hc hsp
  have h2 : c ∈ (parseSign (trimChars cs)).2 := mem_parseSign_snd h1 hp hm
  have h3 : c ∈ (parseSign (trimChars cs)).2.map
      (fun x => if x = 'E' then 'e' else x) := by
    have := List.mem_map_of_mem (fun x => if x = 'E' then 'e' else x) h2
    simpa [if_neg hE] using this
  obtain ⟨part, hpart, hcp⟩ := mem_splitOnChar h3 he
  simp only [parseFloatChars]
  rcases e : splitOnChar 'e'
      ((parseSign (trimChars cs)).2.map (fun x => if x = 'E' then 'e' else x))
    with _ | ⟨m, _ | ⟨ex, _ | _⟩⟩
  · rfl
  · rw [e] at hpart
    have hpm : part = m := by simpa using hpart
    simp [parseMantissa_eq_none_of_mem (hpm ▸ hcp) hd hdot]
  · rw [e] at hpart
    rcases List.mem_cons.1 hpart with h | h
    · simp [parseMantissa_eq_none_of_mem (h ▸ hcp) hd hdot]
    · have hpe : part = ex := by simpa using h
      cases hq : parseMantissa m with
      | none => simp [hq]
      | some q =>
          have h4 : c ∈ (parseSign ex).2 :=
            mem_parseSign_snd (hpe ▸ hcp) hp hm
          simp [hq, allDigits_eq_false_of_mem h4 hd]
  · rfl

/-! ### Every integer literal is also a float literal with the same value. -/

theorem parseFloatChars_of_int {cs : List Char} {n : Int}
    (h : parseIntChars cs = some n) : parseFloatChars cs = some (n : ℚ) := by
  by_cases hd : allDigits (parseSign (trimChars cs)).2 = true
  case neg => simp [parseIntChars, Bool.eq_false_iff.2 hd] at h
  case pos =>
    have hds : ∀ x ∈ (parseSign (trimChars cs)).2, isDig x = true := by
      have hd2 := hd
      unfold allDigits at hd2
      exact List.all_eq_true.1 ((Bool.and_eq_true _ _).mp hd2).2
    have hn : n = (if (parseSign (trimChars cs)).1 then
        -(digitsVal (parseSign (trimChars cs)).2 : Int)
      else (digitsVal (parseSign (trimChars cs)).2 : Int)) := by
      simp [parseIntChars, hd] at h
      exact h.symm
    have hmap : (parseSign (trimChars cs)).2.map
        (fun x => if x = 'E' then 'e' else x) = (parseSign (trimChars cs)).2 :=
      map_id_of_mem (fun x hx => by
        have hxE : x ≠ 'E' := fun e => by
          subst e; exact absurd (hds 'E' hx) (by decide)
        simp [hxE])
    have hnoe : ('e' : Char) ∉ (parseSign (trimChars cs)).2 := fun hm =>
      absurd (hds 'e' hm) (by decide)
    have hnodot : ('.' : Char) ∉ (parseSign (trimChars cs)).2 := fun hm =>
      absurd (hds '.' hm) (by decide)
    simp only [parseFloatChars]
    rw [hmap, splitOnChar_no_sep hnoe]
    simp only [parseMantissa]
    rw [splitOnChar_no_sep hnodot]
    rw [hn]
    cases hb : (parseSign (trimChars cs)).1 <;> simp [hd, hb]

/-! ### Store lemmas: keys after insertion, uniqueness, raw values. -/

theorem replace_keys_eq (st : Store) (k : String) (v : PValue) :
    params (st.map (fun p => if p.1 = k then (k, v) else p)) = params st := by
  unfold params
  rw [List.map_map]
  refine List.map_congr_left (fun p _ => ?_)
  by_cases hpk : p.1 = k
  · simp [hpk]
  · simp [hpk]

theorem insertKV_keys (st : Store) (k : String) (v : PValue) (x : String) :
    x ∈ params (insertKV st k v) ↔ x = k ∨ x ∈ params st := by
  unfold insertKV
  by_cases h : st.any (fun p => p.1 = k)
  · obtain ⟨v2, hv2⟩ : ∃ v2, (k, v2) ∈ st := by simpa using h
    have hk : k ∈ params st := by
      unfold params
      exact List.mem_map_of_mem (fun p => p.1) hv2
    rw [if_pos h, replace_keys_eq]
    constructor
    · exact Or.inr
    · rintro (rfl | hx)
      · exact hk
      · exact hx
  · rw [if_neg h]
    unfold params
    rw [List.map_append]
    simp [or_comm]

theorem insertKV_nodup (st : Store) (k : String) (v : PValue)
    (h : (params st).Nodup) : (params (insertKV st k v)).Nodup := by
  unfold insertKV
  by_cases ha : st.any (fun p => p.1 = k)
  · rw [if_pos ha, replace_keys_eq]
    exact h
  · have hk : k ∉ params st := by
      intro hm
      obtain ⟨p, hp, hpe⟩ := List.mem_map.1 hm
      apply ha
      simp only [List.any_eq_true, decide_eq_true_eq]
      exact ⟨p, hp, hpe⟩
    rw [if_neg ha]
    unfold params
    rw [List.map_append, List.nodup_append]
    refine ⟨h, List.nodup_singleton k, ?_⟩
    intro a ha2 hb
    have hb2 : a = k := by simpa using hb
    exact hk (hb2 ▸ ha2)

theorem buildStore_keys (auto : Bool) :
    ∀ (ps : List (String × String)) (st : Store) (x : String),
      x ∈ params (ps.foldl
        (fun acc p => insertKV acc p.1
          (if auto then autoType p.2 else PValue.str p.2)) st) ↔
      x ∈ params st ∨ x ∈ ps.map (fun p => p.1)
  | [], st, x => by simp
  | q :: t, st, x => by
      rw [List.foldl_cons]
      rw [buildStore_keys auto t (insertKV st q.1
        (if auto then autoType q.2 else PValue.str q.2)) x]
      rw [insertKV_keys]
      simp
      tauto

theorem buildStore_nodup (auto : Bool) :
    ∀ (ps : List (String × String)) (st : Store), (params st).Nodup →
      (params (ps.foldl
        (fun acc p => insertKV acc p.1
          (if auto then autoType p.2 else PValue.str p.2)) st)).Nodup
  | [], _, h => h
  | q :: t, st, h => by
      rw [List.foldl_cons]
      exact buildStore_nodup auto t _ (insertKV_nodup _ _ _ h)

theorem insertKV_str_values (st : Store) (k : String) (s : String)
    (h : ∀ p ∈ st, ∃ s2, p.2 = PValue.str s2) :
    ∀ p ∈ insertKV st k (PValue.str s), ∃ s2, p.2 = PValue.str s2 := by
  unfold insertKV
  by_cases ha : st.any (fun p => p.1 = k)
  · rw [if_pos ha]
    intro p hp
    obtain ⟨p2, hp2, hpe⟩ := List.mem_map.1 hp
    by_cases hpk : p2.1 = k
    · rw [if_pos hpk] at hpe
      exact ⟨s, by rw [← hpe]⟩
    · rw [if_neg hpk] at hpe
      exact hpe ▸ h p2 hp2
  · rw [if_neg ha]
    intro p hp
    rcases List.mem_append.1 hp with h2 | h2
    · exact h p h2
    · have : p = (k, PValue.str s) := by simpa using h2
      exact ⟨s, by rw [this]⟩

theorem buildStore_raw_str :
    ∀ (ps : List (String × String)) (st : Store),
      (∀ p ∈ st, ∃ s2, p.2 = PValue.str s2) →
      ∀ p ∈ ps.foldl
        (fun acc p => insertKV acc p.1
          (if false then autoType p.2 else PValue.str p.2)) st,
        ∃ s2, p.2 = PValue.str s2
  | [], _, h => h
  | q :: t, st, h => by
      rw [List.foldl_cons]
      exact buildStore_raw_str t _ (insertKV_str_values st q.1 q.2 h)

theorem parsePairs_keys :
    ∀ (ls : List (List Char)) (ps : List (String × String)),
      parsePairs ls = Except.ok ps →
      ps.map (fun p => p.1) =
        (ls.filter endsColon).map (fun cs => String.mk (stripColon cs))
  | [], ps, h => by
      simp only [parsePairs] at h
      cases h
      simp
  | [l], ps, h => by
      simp only [parsePairs] at h
      cases h
  | k :: v :: rest, ps, h => by
      simp only [parsePairs] at h
      by_cases hk : endsColon k && !endsColon v
      · rw [if_pos hk] at h
        cases e : parsePairs rest with
        | ok ps2 =>
            rw [e] at h
            cases h
            have hk1 : endsColon k = true := ((Bool.and_eq_true _ _).mp hk).1
            have hk2 : endsColon v = false := by
              have := ((Bool.and_eq_true _ _).mp hk).2
              simpa using this
            have ih := parsePairs_keys rest ps2 e
            simp [List.filter_cons, hk1, hk2, ih]
        | error e2 => rw [e] at h; cases h
      · rw [if_neg hk] at h
        cases h

/-- The values of a store produced by a raw-mode parse are all strings. -/
theorem parseSource_raw_str {lines : List String} {st : Store}
    (h : parseSource false lines = Except.ok st) :
    ∀ p ∈ st, ∃ s2, p.2 = PValue.str s2 := by
  unfold parseSource at h
  cases e : parsePairs (cleanLines lines) with
  | ok ps =>
      rw [e] at h
      cases h
      exact buildStore_raw_str ps [] (by simp)
  | error e2 => rw [e] at h; cases h

/-! ### The claims -/

/-- C1: in a raw-mode store, `read_int` on a key whose stored string is a
pure integer literal returns that integer, and on a stored string containing
a decimal point — even with a zero fractional part — fails with
ParameterValueError. -/
theorem C1_read_int_raw (st : Store) (key : String) (s : String)
    (h : lookupKV st key = some (PValue.str s)) :
    (∀ n, parseIntLiteral s = some n → read_int st key none = Except.ok n) ∧
    ('.' ∈ s.data → read_int st key none = Except.error PError.paramValue) := by
  constructor
  · intro n hn
    simp [read_int, h, hn]
  · intro hdot
    have hnone : parseIntLiteral s = none :=
      parseIntChars_eq_none_of_mem hdot (by decide) (by decide)
        (by decide) (by decide)
    simp [read_int, h, hnone]

/-- C2: in auto-type mode, a value string splitting on commas into at least
two items, every item (after stripping surrounding whitespace) parsing as an
int, is stored as the integer array of those items in written order; if the
items do not all parse as ints but all parse as floats, it is stored as the
float array of those items in written order. -/
theorem C2_auto_numeric_array (s : String) (ns : List Int) (qs : List ℚ)
    (h2 : 2 ≤ ((splitOnChar ',' (trimChars s.data)).map trimChars).length) :
    (((splitOnChar ',' (trimChars s.data)).map trimChars).mapM parseIntChars
        = some ns → autoType s = PValue.intArray ns) ∧
    (((splitOnChar ',' (trimChars s.data)).map trimChars).mapM parseIntChars
        = none →
     ((splitOnChar ',' (trimChars s.data)).map trimChars).mapM parseFloatChars
        = some qs → autoType s = PValue.floatArray qs) := by
  have hcm : ',' ∈ trimChars s.data := by
    by_contra hnc
    rw [List.length_map, splitOnChar_no_sep hnc] at h2
    simp at h2
  have hint : parseIntChars (trimChars s.data) = none :=
    parseIntChars_eq_none_of_mem hcm (by decide) (by decide)
      (by decide) (by decide)
  have hflt : parseFloatChars (trimChars s.data) = none :=
    parseFloatChars_eq_none_of_mem hcm (by decide) (by decide)
      (by decide) (by decide) (by decide) (by decide) (by decide)
  have hlow : (',' : Char) ∈ lowerChars (trimChars s.data) := by
    have hmm := List.mem_map_of_mem toLowerCh hcm
    rw [show toLowerCh ',' = ',' from by decide] at hmm
    exact hmm
  have htr : lowerChars (trimChars s.data) ≠ "true".data := by
    intro he
    rw [he] at hlow
    exact absurd hlow (by decide)
  have hfa : lowerChars (trimChars s.data) ≠ "false".data := by
    intro he
    rw [he] at hlow
    exact absurd hlow (by decide)
  constructor
  · intro hmi
    simp only [autoType, hint, hflt, if_neg htr, if_neg hfa, if_pos h2, hmi]
  · intro hmi hmf
    simp only [autoType, hint, hflt, if_neg htr, if_neg hfa, if_pos h2,
      hmi, hmf]

/-- C3: every typed accessor and `get`, called on an absent key with no
default, fails with MissingKeyError naming the key. -/
theorem C3_missing_key_error (st : Store) (key : String)
    (h : lookupKV st key = none) :
    read_int st key none = Except.error (PError.missingKey key) ∧
    read_float st key none = Except.error (PError.missingKey key) ∧
    read_string st key none = Except.error (PError.missingKey key) ∧
    read_bool st key none = Except.error (PError.missingKey key) ∧
    ∀ pt : PType, get st key pt none = Except.error (PError.missingKey key) := by
  refine ⟨?_, ?_, ?_, ?_, fun pt => ?_⟩ <;>
    simp [read_int, read_float, read_string, read_bool, get, h]

/-- C4: every typed accessor and `get`, called on an absent key with an
explicit default, returns the default and leaves the store unchanged — the
default is not inserted and no key's binding changes. -/
theorem C4_default_not_inserted (st : Store) (key : String)
    (di : Int) (dq : ℚ) (ds : String) (db : Bool) (dv : PValue) (pt : PType)
    (h : lookupKV st key = none) :
    readIntS st key (some di) = (Except.ok di, st) ∧
    readFloatS st key (some dq) = (Except.ok dq, st) ∧
    readStringS st key (some ds) = (Except.ok ds, st) ∧
    readBoolS st key (some db) = (Except.ok db, st) ∧
    getS st key pt (some dv) = (Except.ok dv, st) ∧
    lookupKV (readIntS st key (some di)).2 key = none := by
  refine ⟨?_, ?_, ?_, ?_, ?_, ?_⟩ <;>
    simp [readIntS, readFloatS, readStringS, readBoolS, getS,
      read_int, read_float, read_string, read_bool, get, h]

/-- C5: `get(key, ptype=T, default=d)` behaves identically to the
corresponding `read_T(key, default=d)` for T in int, float, str, bool:
same value on success, same error kind on failure, same defaulting. -/
theorem C5_get_refines_read (st : Store) (key : String) :
    (∀ d : Option Int, get st key PType.int (d.map PValue.int) =
      Except.map PValue.int (read_int st key d)) ∧
    (∀ d : Option ℚ, get st key PType.float (d.map PValue.float) =
      Except.map PValue.float (read_float st key d)) ∧
    (∀ d : Option String, get st key PType.str (d.map PValue.str) =
      Except.map PValue.str (read_string st key d)) ∧
    (∀ d : Option Bool, get st key PType.bool (d.map PValue.bool) =
      Except.map PValue.bool (read_bool st key d)) := by
  refine ⟨fun d => ?_, fun d => ?_, fun d => ?_, fun d => ?_⟩ <;>
    cases hv : lookupKV st key with
  | none =>
      cases d <;> simp [get, read_int, read_float, read_string, read_bool,
        hv, Except.map]
  | some v =>
      cases v <;>
        simp [get, read_int, read_float, read_string, read_bool,
          coerceTo, hv, Except.map] <;>
      first
      | (rename_i s; cases hp : parseIntLiteral s <;> simp [hp, Except.map])
      | (rename_i s; cases hp : parseFloatLiteral s <;> simp [hp, Except.map])
      | (rename_i s;
         by_cases ht : lowerChars s.data = "true".data <;>
           by_cases hf : lowerChars s.data = "false".data <;>
           simp [ht, hf, Except.map])

/-- C6: in a raw-mode store, `read_float` succeeds on float-literal and on
integer-literal strings, returning the value as a float, and fails with
ParameterValueError on a non-numeric string. -/
theorem C6_read_float_raw (st : Store) (key : String) (s : String)
    (h : lookupKV st key = some (PValue.str s)) :
    (∀ q, parseFloatLiteral s = some q → read_float st key none = Except.ok q) ∧
    (∀ n, parseIntLiteral s = some n →
      read_float st key none = Except.ok (n : ℚ)) ∧
    (parseFloatLiteral s = none →
      read_float st key none = Except.error PError.paramValue) := by
  refine ⟨fun q hq => ?_, fun n hn => ?_, fun hq => ?_⟩
  · simp [read_float, h, hq]
  · simp [read_float, h, parseFloatLiteral, parseFloatChars_of_int hn]
  · simp [read_float, h, hq]

/-- C7: `read_bool` returns true exactly when the stored value is the string
"true" case-insensitively (or the native bool true), false exactly for
"false" (or native false), and fails with ParameterValueError on every
other string. -/
theorem C7_read_bool_strict (st : Store) (key : String) :
    (∀ b, lookupKV st key = some (PValue.bool b) →
      read_bool st key none = Except.ok b) ∧
    (∀ s, lookupKV st key = some (PValue.str s) →
      ((read_bool st key none = Except.ok true ↔
          lowerChars s.data = "true".data) ∧
       (read_bool st key none = Except.ok false ↔
          lowerChars s.data = "false".data) ∧
       (lowerChars s.data ≠ "true".data → lowerChars s.data ≠ "false".data →
          read_bool st key none = Except.error PError.paramValue))) := by
  constructor
  · intro b hb
    simp [read_bool, hb]
  · intro s hs
    by_cases ht : lowerChars s.data = "true".data
    · have hf : lowerChars s.data ≠ "false".data := by
        rw [ht]
        decide
      simp [read_bool, hs, ht, hf]
    · by_cases hf : lowerChars s.data = "false".data
      · simp [read_bool, hs, ht, hf]
      · simp [read_bool, hs, ht, hf]

/-- C8: indexed lookup returns the raw stored value without coercion — in a
raw-mode store that value is always the stored string — and fails with the
key-error kind on an absent key, with no defaulting path. -/
theorem C8_index_returns_raw (st : Store) (key : String) :
    (∀ v, lookupKV st key = some v → getIndex st key = Except.ok v) ∧
    (lookupKV st key = none →
      getIndex st key = Except.error (PError.keyError key)) ∧
    (∀ lines, parseSource false lines = Except.ok st →
      ∀ v, lookupKV st key = some v → ∃ s, v = PValue.str s) := by
  refine ⟨fun v hv => ?_, fun hv => ?_, fun lines hl v hv => ?_⟩
  · simp [getIndex, hv]
  · simp [getIndex, hv]
  · have hall := parseSource_raw_str hl
    unfold lookupKV at hv
    cases hf : List.find? (fun p => p.1 = key) st with
    | none => rw [hf] at hv; cases hv
    | some p =>
        rw [hf] at hv
        have hpv : p.2 = v := by simpa using hv
        obtain ⟨s2, hs2⟩ := hall p (List.mem_of_find?_eq_some hf)
        exact ⟨s2, hpv ▸ hs2⟩

/-- C9: for a raw-mode parse, the set of keys returned by `params()` equals
the set of key lines of the cleaned source (the lines ending in the colon
delimiter, with the colon stripped), and iteration yields each key exactly
once. -/
theorem C9_params_eq_key_lines (lines : List String) (st : Store)
    (h : parseSource false lines = Except.ok st) :
    (params st).toFinset =
      (((cleanLines lines).filter endsColon).map
        (fun cs => String.mk (stripColon cs))).toFinset ∧
    (params st).Nodup := by
  unfold parseSource at h
  cases e : parsePairs (cleanLines lines) with
  | error e2 => rw [e] at h; cases h
  | ok ps =>
      rw [e] at h
      cases h
      constructor
      · apply Finset.ext
        intro x
        rw [List.mem_toFinset, List.mem_toFinset, ← parsePairs_keys _ _ e]
        unfold buildStore
        rw [buildStore_keys false ps [] x]
        simp [params]
      · exact buildStore_nodup false ps [] (by simp [params])

/-- C10: in `_FlowDirectorToOne.__init__`, a `flow__link_to_receiver_node`
(resp. `flow__receiver_node`) field that is all zeros after output-field
initialization is entirely filled with the grid's BAD_INDEX, and a field
with any nonzero element is left unchanged. -/
theorem C10_init_bad_index_fill (g : GridFields) :
    ((∀ x ∈ g.links_to_receiver, x = 0) →
      (flowDirectorToOneInit g).links_to_receiver =
        g.links_to_receiver.map (fun _ => g.bad_index) ∧
      ∀ y ∈ (flowDirectorToOneInit g).links_to_receiver, y = g.bad_index) ∧
    ((∃ x ∈ g.links_to_receiver, x ≠ 0) →
      (flowDirectorToOneInit g).links_to_receiver = g.links_to_receiver) ∧
    ((∀ x ∈ g.receiver, x = 0) →
      (flowDirectorToOneInit g).receiver =
        g.receiver.map (fun _ => g.bad_index) ∧
      ∀ y ∈ (flowDirectorToOneInit g).receiver, y = g.bad_index) ∧
    ((∃ x ∈ g.receiver, x ≠ 0) →
      (flowDirectorToOneInit g).receiver = g.receiver) := by
  refine ⟨fun h0 => ?_, fun hne => ?_, fun h0 => ?_, fun hne => ?_⟩
  · have hall : g.links_to_receiver.all (fun x => x == 0) = true := by
      simp only [List.all_eq_true, beq_iff_eq]
      exact h0
    constructor
    · simp [flowDirectorToOneInit, fillIfAllZero, hall]
    · intro y hy
      simp only [flowDirectorToOneInit, fillIfAllZero, hall, if_true] at hy
      obtain ⟨x, _, hx⟩ := List.mem_map.1 hy
      exact hx.symm
  · obtain ⟨x, hx, hxne⟩ := hne
    have hall : g.links_to_receiver.all (fun x => x == 0) = false :=
      all_eq_false_of_mem hx (by simpa using hxne)
    simp [flowDirectorToOneInit, fillIfAllZero, hall]
  · have hall : g.receiver.all (fun x => x == 0) = true := by
      simp only [List.all_eq_true, beq_iff_eq]
      exact h0
    constructor
    · simp [flowDirectorToOneInit, fillIfAllZero, hall]
    · intro y hy
      simp only [flowDirectorToOneInit, fillIfAllZero, hall, if_true] at hy
      obtain ⟨x, _, hx⟩ := List.mem_map.1 hy
      exact hx.symm
  · obtain ⟨x, hx, hxne⟩ := hne
    have hall : g.receiver.all (fun x => x == 0) = false :=
      all_eq_false_of_mem hx (by simpa using hxne)
    simp [flowDirectorToOneInit, fillIfAllZero, hall]

/-! ### Witnesses: each theorem with hypotheses, applied at concrete
stores taken from the unit-test fixtures. -/

theorem C1_read_int_raw_witness :
    read_int [("INT_VAL", PValue.str "1"), ("FLOAT_VAL", PValue.str "2.2")]
      "INT_VAL" none = Except.ok 1 ∧
    read_int [("INT_VAL", PValue.str "1"), ("FLOAT_VAL", PValue.str "2.2")]
      "FLOAT_VAL" none = Except.error PError.paramValue :=
  ⟨(C1_read_int_raw _ "INT_VAL" "1" (by rfl)).1 1 (by rfl),
   (C1_read_int_raw _ "FLOAT_VAL" "2.2" (by rfl)).2 (by decide)⟩

theorem C2_auto_numeric_array_witness :
    2 ≤ ((splitOnChar ',' (trimChars "1,2 ,4 ,7".data)).map trimChars).length ∧
    autoType "1,2 ,4 ,7" = PValue.intArray [1, 2, 4, 7] ∧
    autoType "1.,2. ,4. ,7." = PValue.floatArray [1, 2, 4, 7] :=
  ⟨by decide,
   (C2_auto_numeric_array "1,2 ,4 ,7" [1, 2, 4, 7] [] (by decide)).1 (by decide),
   (C2_auto_numeric_array "1.,2. ,4. ,7." [] [1, 2, 4, 7] (by decide)).2
     (by decide)
     (by
       have h : (((splitOnChar ',' (trimChars "1.,2. ,4. ,7.".data)).map
           trimChars).mapM parseFloatChars) =
           some [(1 : ℚ) + 0 / 10 ^ (0 : ℕ), 2 + 0 / 10 ^ (0 : ℕ),
             4 + 0 / 10 ^ (0 : ℕ), 7 + 0 / 10 ^ (0 : ℕ)] := rfl
       rw [h]
       norm_num)⟩

theorem C3_missing_key_error_witness :
    read_int [("A", PValue.str "1")] "MISSING_INT" none =
      Except.error (PError.missingKey "MISSING_INT") ∧
    get [("A", PValue.str "1")] "MISSING_INT" PType.int none =
      Except.error (PError.missingKey "MISSING_INT") :=
  ⟨(C3_missing_key_error _ _ (by rfl)).1,
   (C3_missing_key_error _ _ (by rfl)).2.2.2.2 PType.int⟩

theorem C4_default_not_inserted_witness :
    readIntS [("A", PValue.str "1")] "MISSING_INT" (some 2) =
      (Except.ok 2, [("A", PValue.str "1")]) ∧
    lookupKV (readIntS [("A", PValue.str "1")] "MISSING_INT" (some 2)).2
      "MISSING_INT" = none :=
  ⟨(C4_default_not_inserted _ _ 2 0 "" false (PValue.int 2) PType.int
      (by rfl)).1,
   (C4_default_not_inserted _ _ 2 0 "" false (PValue.int 2) PType.int
      (by rfl)).2.2.2.2.2⟩

theorem C5_get_refines_read_witness :
    get [("INT_VAL", PValue.str "1")] "INT_VAL" PType.int none =
      Except.map PValue.int
        (read_int [("INT_VAL", PValue.str "1")] "INT_VAL" none) :=
  (C5_get_refines_read _ "INT_VAL").1 none

theorem C6_read_float_raw_witness :
    read_float [("FLOAT_VAL", PValue.str "2.2"), ("INT_VAL", PValue.str "1"),
        ("STRING_VAL", PValue.str "The Landlab")] "FLOAT_VAL" none =
      Except.ok (11 / 5 : ℚ) ∧
    read_float [("FLOAT_VAL", PValue.str "2.2"), ("INT_VAL", PValue.str "1"),
        ("STRING_VAL", PValue.str "The Landlab")] "INT_VAL" none =
      Except.ok ((1 : Int) : ℚ) ∧
    read_float [("FLOAT_VAL", PValue.str "2.2"), ("INT_VAL", PValue.str "1"),
        ("STRING_VAL", PValue.str "The Landlab")] "STRING_VAL" none =
      Except.error PError.paramValue :=
  ⟨(C6_read_float_raw _ "FLOAT_VAL" "2.2" (by rfl)).1 (11 / 5)
     (by
       have h : parseFloatLiteral "2.2" =
           some ((2 : ℚ) + 2 / 10 ^ (1 : ℕ)) := rfl
       rw [h]
       norm_num),
   (C6_read_float_raw _ "INT_VAL" "1" (by rfl)).2.1 1 (by decide),
   (C6_read_float_raw _ "STRING_VAL" "The Landlab" (by rfl)).2.2 (by decide)⟩

theorem C7_read_bool_strict_witness :
    read_bool [("T", PValue.str "True"), ("F", PValue.str "False"),
      ("S", PValue.str "The Landlab")] "T" none = Except.ok true ∧
    read_bool [("T", PValue.str "True"), ("F", PValue.str "False"),
      ("S", PValue.str "The Landlab")] "F" none = Except.ok false ∧
    read_bool [("T", PValue.str "True"), ("F", PValue.str "False"),
      ("S", PValue.str "The Landlab")] "S" none =
      Except.error PError.paramValue :=
  ⟨((C7_read_bool_strict _ "T").2 "True" (by rfl)).1.mpr (by decide),
   ((C7_read_bool_strict _ "F").2 "False" (by rfl)).2.1.mpr (by decide),
   ((C7_read_bool_strict _ "S").2 "The Landlab" (by rfl)).2.2
     (by decide) (by decide)⟩

theorem C8_index_returns_raw_witness :
    getIndex [("INT_VAL", PValue.str "1")] "INT_VAL" =
      Except.ok (PValue.str "1") ∧
    getIndex [("INT_VAL", PValue.str "1")] "MISSING" =
      Except.error (PError.keyError "MISSING") :=
  ⟨(C8_index_returns_raw _ "INT_VAL").1 (PValue.str "1") (by rfl),
   (C8_index_returns_raw _ "MISSING").2.1 (by rfl)⟩

theorem C9_params_eq_key_lines_witness :
    (params [("INT_VAL", PValue.str "1"),
      ("FLOAT_VAL", PValue.str "2.2")]).toFinset =
      (((cleanLines ["INT_VAL:", "1", "FLOAT_VAL:", "2.2"]).filter
        endsColon).map (fun cs => String.mk (stripColon cs))).toFinset ∧
    (params [("INT_VAL", PValue.str "1"),
      ("FLOAT_VAL", PValue.str "2.2")]).Nodup :=
  C9_params_eq_key_lines ["INT_VAL:", "1", "FLOAT_VAL:", "2.2"] _ (by rfl)

theorem C10_init_bad_index_fill_witness :
    (flowDirectorToOneInit ⟨[0, 0], [3, 0], -1⟩).links_to_receiver =
      ([0, 0] : List Int).map (fun _ => (-1 : Int)) ∧
    (flowDirectorToOneInit ⟨[0, 0], [3, 0], -1⟩).receiver = [3, 0] :=
  ⟨((C10_init_bad_index_fill ⟨[0, 0], [3, 0], -1⟩).1 (by decide)).1,
   (C10_init_bad_index_fill ⟨[0, 0], [3, 0], -1⟩).2.2.2 (by decide)⟩

end Landlab
